import Mathlib

/-!
Shallow embedding of the upload-queue / linking / resolution core of the
telegram-platform repository (`backend/app/routes/uploads.py`,
`backend/app/routes/media.py`, `bots/streaming_bot/bot.py`).

Modelling conventions:
* The MongoDB collections `upload_queue`, `films`, `episodes` are lists of
  documents kept in insertion order (Mongo `insert_one` appends); `_id`
  uniqueness is carried as an explicit `Nodup` hypothesis where needed.
* The catalog collection `media` is only consulted through
  `find_one({"_id": ...})` followed by a `type` check, so it is modelled as a
  lookup function from id to kind.  ObjectId string parsing is abstracted
  away: ids are opaque strings.
* Wall-clock time (`datetime.utcnow()`) is an explicit input of every
  operation that records a timestamp.
* The two fallible store writes inside the bulk-link loop (`replace_one` on
  `episodes`, `delete_one` on `upload_queue`) are driven by an oracle
  (`Env.upsertFails`, `Env.dequeueFails`) telling whether the call raises,
  mirroring the `try/except` in `link_season_bulk`.
* An HTTP handler returns the (possibly mutated) database together with
  either its JSON payload or the raised `HTTPException`, modelled by
  `DB × Except HErr α`.
-/

/-- Catalog kind tag: the `type` field of a `media` document. -/
inductive MediaType where
  | film
  | series
deriving DecidableEq

/-- A document of the `upload_queue` collection (`add_to_queue` in
`uploads.py` inserts `data.model_dump()` plus a `timestamp`). -/
structure UploadEntry where
  entryId : Nat
  user_id : Int
  file_id : String
  bot_name : String
  message_id : Option Int
  timestamp : Nat
deriving DecidableEq

/-- A document of the `films` collection (`link_film` in `media.py`). -/
structure FilmDoc where
  media_id : String
  file_id : String
  message_id : Option Int
  storage_bot : String
  uploader_id : Int
  linked_at : Nat
deriving DecidableEq

/-- A document of the `episodes` collection (`link_episode` /
`link_season_bulk` in `media.py`). -/
structure EpisodeDoc where
  media_id : String
  season_number : Int
  episode_number : Nat
  file_id : String
  message_id : Option Int
  storage_bot : String
  uploader_id : Int
  linked_at : Nat
deriving DecidableEq

/-- Request body of `POST /film/link` (`FilmLink` in `models.py`). -/
structure FilmLink where
  film_id : String
  file_id : String
  message_id : Option Int
  storage_bot : String
  uploader_id : Int
deriving DecidableEq

/-- Request body of the upload endpoints (`UploadCreate` in `models.py`). -/
structure UploadCreate where
  user_id : Int
  file_id : String
  bot_name : String
  message_id : Option Int
deriving DecidableEq

/-- The database state: the collections touched by the embedded routes. -/
structure DB where
  media : String → Option MediaType
  films : List FilmDoc
  episodes : List EpisodeDoc
  upload_queue : List UploadEntry
  nextId : Nat

/-- The HTTP errors raised by the embedded handlers (`HTTPException`s):
404 "not found", 400 "Media is not a film/series", and the 400
"Not enough uploads. Found f, need n" of the bulk guard. -/
inductive HErr where
  | notFound
  | wrongKind
  | insufficientQueue (found needed : Nat)
deriving DecidableEq

/-- Per-episode outcome recorded in the `linked` list of
`link_season_bulk`. -/
structure Outcome where
  episode : Nat
  success : Bool
  error : Option String
deriving DecidableEq

/-- The JSON payload returned by `link_season_bulk`. -/
structure BulkResult where
  media_id : String
  season : Int
  total_episodes : Nat
  linked_successfully : Nat
  details : List Outcome
deriving DecidableEq

/-- Environment of one `link_season_bulk` call: the server clock and the
failure oracle for the two store writes of iteration `ep` (whether the
`replace_one` upsert, resp. the `delete_one` dequeue, raises), plus the
`str(e)` message recorded on failure. -/
structure Env where
  now : Nat
  upsertFails : Nat → Bool
  dequeueFails : Nat → Bool
  failMsg : Nat → String

/-! ## Store primitives -/

/-- Stable insertion used by `sortTs`: place `e` before the first element
with a timestamp not smaller than `e`'s. -/
def insertTs (e : UploadEntry) : List UploadEntry → List UploadEntry
  | [] => [e]
  | x :: xs => if e.timestamp ≤ x.timestamp then e :: x :: xs else x :: insertTs e xs

/-- `.sort("timestamp", 1)`: sort documents by the `timestamp` field,
ascending (stable). -/
def sortTs (l : List UploadEntry) : List UploadEntry :=
  l.foldr insertTs []

/-- `find({"user_id": uid})`: the sub-list of queue documents owned by
`uid`, in collection (insertion) order. -/
def forUser (uid : Int) (l : List UploadEntry) : List UploadEntry :=
  l.filter (fun e => e.user_id == uid)

/-- `delete_one({"_id": i})` on the upload queue: remove the (at most one,
by `_id` uniqueness) document with id `i`. -/
def eraseById (i : Nat) : List UploadEntry → List UploadEntry
  | [] => []
  | e :: es => if e.entryId = i then es else e :: eraseById i es

/-- `replace_one({"media_id": m, "season_number": s, "episode_number": n},
doc, upsert=True)`: replace the first document with `doc`'s key, else
append `doc`. -/
def upsertEpisode (doc : EpisodeDoc) : List EpisodeDoc → List EpisodeDoc
  | [] => [doc]
  | d :: ds =>
    if d.media_id = doc.media_id ∧ d.season_number = doc.season_number ∧
        d.episode_number = doc.episode_number then
      doc :: ds
    else
      d :: upsertEpisode doc ds

/-- `replace_one({"media_id": m}, doc, upsert=True)` on `films`. -/
def upsertFilm (doc : FilmDoc) : List FilmDoc → List FilmDoc
  | [] => [doc]
  | d :: ds => if d.media_id = doc.media_id then doc :: ds else d :: upsertFilm doc ds

/-- The film documents attached to `mid` (matches of `{"media_id": mid}`). -/
def filmsFor (mid : String) (l : List FilmDoc) : List FilmDoc :=
  l.filter (fun d => d.media_id == mid)

/-! ## Queue routes (`uploads.py`) -/

/-- `POST /{user_id}/queue` (`add_to_queue`): insert
`{**data.model_dump(), "timestamp": utcnow()}` into `upload_queue`.  Note
the inserted document's `user_id` comes from the body `data`, not from the
`path_user_id` path parameter, which is unused. -/
def add_to_queue (t : Nat) (path_user_id : Int) (data : UploadCreate) (db : DB) :
    DB × Except HErr Nat :=
  let _ := path_user_id
  let entry : UploadEntry :=
    { entryId := db.nextId
      user_id := data.user_id
      file_id := data.file_id
      bot_name := data.bot_name
      message_id := data.message_id
      timestamp := t }
  ({ db with upload_queue := db.upload_queue ++ [entry], nextId := db.nextId + 1 },
   .ok entry.entryId)

/-- `GET /{user_id}/queue` (`get_queue`): the user's queue documents sorted
by the `timestamp` field, ascending. -/
def get_queue (uid : Int) (db : DB) : List UploadEntry :=
  sortTs (forUser uid db.upload_queue)

/-- `GET /{user_id}/queue/count` (`get_queue_count`):
`count_documents({"user_id": uid})`. -/
def get_queue_count (uid : Int) (db : DB) : Nat :=
  (forUser uid db.upload_queue).length

/-- `DELETE /{user_id}/queue` (`clear_queue`):
`delete_many({"user_id": uid})`, returning the deleted count. -/
def clear_queue (uid : Int) (db : DB) : DB × Nat :=
  ({ db with upload_queue := db.upload_queue.filter (fun e => !(e.user_id == uid)) },
   (forUser uid db.upload_queue).length)

/-! ## Film linking (`media.py`) -/

/-- The `films` document written by `link_film`. -/
def mkFilmDoc (data : FilmLink) (now : Nat) : FilmDoc :=
  { media_id := data.film_id
    file_id := data.file_id
    message_id := data.message_id
    storage_bot := data.storage_bot
    uploader_id := data.uploader_id
    linked_at := now }

/-- `POST /film/link` (`link_film`): resolve the id in `media`, 404 when
absent, 400 when its `type` is not `"film"`, else upsert the film document
keyed by `media_id`. -/
def link_film (now : Nat) (db : DB) (data : FilmLink) : DB × Except HErr String :=
  match db.media data.film_id with
  | none => (db, .error .notFound)
  | some k =>
    if k = MediaType.film then
      ({ db with films := upsertFilm (mkFilmDoc data now) db.films },
       .ok data.film_id)
    else
      (db, .error .wrongKind)

/-! ## Bulk season linking (`media.py`) -/

/-- The `episodes` document written for queue entry `u` at episode number
`ep` by the bulk loop (`storage_bot` is the entry's `bot_name`, the
`uploader_id` is the request parameter). -/
def mkEpisodeDoc (mid : String) (sn : Int) (ep : Nat) (u : UploadEntry)
    (uid : Int) (now : Nat) : EpisodeDoc :=
  { media_id := mid
    season_number := sn
    episode_number := ep
    file_id := u.file_id
    message_id := u.message_id
    storage_bot := u.bot_name
    uploader_id := uid
    linked_at := now }

/-- The `for i, upload in enumerate(uploads)` loop of `link_season_bulk`:
process the peeked entries in order, episode numbers counting up from
`ep`; on upsert failure nothing is written, on dequeue failure the episode
document stays but the entry is not removed; failures are recorded and do
not abort the remaining iterations.  Returns the final `episodes`
collection, the final queue and the `linked` outcome list. -/
def linkLoop (env : Env) (mid : String) (sn : Int) (uid : Int) :
    List UploadEntry → Nat → List EpisodeDoc → List UploadEntry →
    List EpisodeDoc × List UploadEntry × List Outcome
  | [], _, eps, q => (eps, q, [])
  | u :: us, ep, eps, q =>
    if env.upsertFails ep then
      let r := linkLoop env mid sn uid us (ep + 1) eps q
      (r.1, r.2.1, ⟨ep, false, some (env.failMsg ep)⟩ :: r.2.2)
    else
      let eps' := upsertEpisode (mkEpisodeDoc mid sn ep u uid env.now) eps
      if env.dequeueFails ep then
        let r := linkLoop env mid sn uid us (ep + 1) eps' q
        (r.1, r.2.1, ⟨ep, false, some (env.failMsg ep)⟩ :: r.2.2)
      else
        let r := linkLoop env mid sn uid us (ep + 1) eps' (eraseById u.entryId q)
        (r.1, r.2.1, ⟨ep, true, none⟩ :: r.2.2)

/-- `POST /season/link-bulk` (`link_season_bulk`): peek the `n` oldest
queue documents of `uid` (sorted by `timestamp`); if fewer were found,
raise the "Not enough uploads" 400 before any mutation; otherwise run the
per-item loop and answer 200 with the batch result.  Note there is no
catalog lookup of `mid` anywhere in this handler. -/
def link_season_bulk (env : Env) (db : DB) (mid : String) (sn : Int)
    (n : Nat) (uid : Int) : DB × Except HErr BulkResult :=
  let uploads := (sortTs (forUser uid db.upload_queue)).take n
  if uploads.length < n then
    (db, .error (.insufficientQueue uploads.length n))
  else
    let r := linkLoop env mid sn uid uploads 1 db.episodes db.upload_queue
    ({ db with episodes := r.1, upload_queue := r.2.1 },
     .ok { media_id := mid
           season := sn
           total_episodes := n
           linked_successfully := (r.2.2.filter (fun o => o.success)).length
           details := r.2.2 })

/-! ## Content resolution (`bots/streaming_bot/bot.py`) -/

/-- The attachment payload handed to `send_video_from_channel`
(`video_data.get("message_id")`, `video_data.get("file_id")`). -/
structure VideoData where
  message_id : Option Int
  file_id : String
deriving DecidableEq

/-- The two delivery plans of the resolver. -/
inductive DeliveryPlan where
  | byChannelRef (msgId : Int)
  | byFileId (fileId : String)
deriving DecidableEq

/-- Environment of one delivery: the outcome of `copy_message` for a given
message id and of `send_video` for a given file id. -/
structure ReplayEnv where
  copyMessage : Int → Except String Unit
  sendVideo : String → Except String Unit

/-- The branch condition `if message_id:` of `send_video_from_channel`:
Python truthiness on an optional integer (falsy when absent or zero). -/
def pyTruthyInt : Option Int → Bool
  | none => false
  | some m => m != 0

/-- The addressing decision taken by `send_video_from_channel`: channel
reference when `message_id` is truthy, else raw file handle. -/
def resolvePlan (v : VideoData) : DeliveryPlan :=
  match v.message_id with
  | some m => if m ≠ 0 then .byChannelRef m else .byFileId v.file_id
  | none => .byFileId v.file_id

/-- `send_video_from_channel`: `copy_message` from the storage channel when
`message_id` is truthy, else fall back to `send_video` with the raw
`file_id`; the `except` clause logs and re-raises, so the chosen call's
outcome is returned unchanged. -/
def send_video_from_channel (env : ReplayEnv) (v : VideoData) : Except String Unit :=
  match v.message_id with
  | some m => if m ≠ 0 then env.copyMessage m else env.sendVideo v.file_id
  | none => env.sendVideo v.file_id

/-! ## Concrete fixtures used by witnesses and counterexamples -/

/-- A database with empty collections and an empty catalog. -/
def emptyDB : DB :=
  { media := fun _ => none, films := [], episodes := [], upload_queue := [], nextId := 0 }

/-- A catalog mapping every id to a series title. -/
def seriesCatDB : DB := { emptyDB with media := fun _ => some .series }

/-- A catalog mapping every id to a film title. -/
def filmCatDB : DB := { emptyDB with media := fun _ => some .film }

/-- An environment in which no store write fails. -/
def envNoFail : Env :=
  { now := 42, upsertFails := fun _ => false, dequeueFails := fun _ => false,
    failMsg := fun _ => "err" }

/-- A delivery environment in which both replay calls succeed. -/
def replayOk : ReplayEnv := { copyMessage := fun _ => .ok (), sendVideo := fun _ => .ok () }

/-- A queued upload of user 7. -/
def qEntryA : UploadEntry :=
  { entryId := 0, user_id := 7, file_id := "a", bot_name := "botA", message_id := none,
    timestamp := 10 }

/-- A database whose queue holds exactly `qEntryA`. -/
def dbQ1 : DB := { emptyDB with upload_queue := [qEntryA], nextId := 1 }

/-! ## Helper lemmas -/

theorem length_insertTs (e : UploadEntry) (l : List UploadEntry) :
    (insertTs e l).length = l.length + 1 := by
  induction l with
  | nil => rfl
  | cons x xs ih =>
    by_cases h : e.timestamp ≤ x.timestamp <;> simp [insertTs, h, ih]

theorem length_sortTs (l : List UploadEntry) : (sortTs l).length = l.length := by
  induction l with
  | nil => rfl
  | cons x xs ih => simp [sortTs, List.foldr_cons] at ih ⊢; rw [length_insertTs, ih]

theorem filmsFor_upsertFilm (doc : FilmDoc) (l : List FilmDoc)
    (h : (filmsFor doc.media_id l).length ≤ 1) :
    filmsFor doc.media_id (upsertFilm doc l) = [doc] := by
  induction l with
  | nil => simp [filmsFor, upsertFilm]
  | cons d ds ih =>
    by_cases hd : d.media_id = doc.media_id
    · have hfil : filmsFor doc.media_id (d :: ds) = d :: filmsFor doc.media_id ds := by
        simp [filmsFor, hd]
      rw [hfil] at h
      simp only [List.length_cons] at h
      have hnil : filmsFor doc.media_id ds = [] :=
        List.eq_nil_of_length_eq_zero (by omega)
      simp [upsertFilm, hd, filmsFor, hnil]
      have := congrArg List.length hnil
      simp [filmsFor] at this
      simpa [filmsFor] using hnil
    · have hfil : filmsFor doc.media_id (d :: ds) = filmsFor doc.media_id ds := by
        simp [filmsFor, hd]
      rw [hfil] at h
      simp [upsertFilm, hd, filmsFor, ih h]
      simpa [filmsFor] using ih h

/-! ## Claim C8 -/

/-- C8: `link_film` on an id whose catalog kind is Series fails with
WrongKind and mutates nothing; on an id with no catalog entry it fails
with NotFound and mutates nothing. -/
theorem C8_link_film_rejects (now : Nat) (db : DB) (data : FilmLink) :
    (db.media data.film_id = some .series →
      link_film now db data = (db, .error .wrongKind)) ∧
    (db.media data.film_id = none →
      link_film now db data = (db, .error .notFound)) := by
  constructor <;> intro h <;> simp [link_film, h]

/-- C8 witness: concrete evaluations of both rejection branches. -/
theorem C8_link_film_rejects_witness :
    link_film 0 seriesCatDB ⟨"s", "f", none, "b", 1⟩ =
      (seriesCatDB, .error .wrongKind) ∧
    link_film 0 emptyDB ⟨"s", "f", none, "b", 1⟩ =
      (emptyDB, .error .notFound) :=
  ⟨(C8_link_film_rejects 0 seriesCatDB ⟨"s", "f", none, "b", 1⟩).1 rfl,
   (C8_link_film_rejects 0 emptyDB ⟨"s", "f", none, "b", 1⟩).2 rfl⟩

/-! ## Claim C7 -/

/-- C7: two successive `link_film` calls for the same film id leave exactly
one attached film document, equal to the second record's fields plus the
second server timestamp (upsert keyed by `media_id`, no duplicates),
assuming the store satisfies the at-most-one-per-key uniqueness invariant
beforehand. -/
theorem C7_link_film_upsert (t1 t2 : Nat) (db : DB) (d1 d2 : FilmLink)
    (hid : d1.film_id = d2.film_id)
    (hkind : db.media d2.film_id = some .film)
    (huniq : (filmsFor d2.film_id db.films).length ≤ 1) :
    filmsFor d2.film_id (link_film t2 (link_film t1 db d1).1 d2).1.films =
      [mkFilmDoc d2 t2] ∧
    (link_film t2 (link_film t1 db d1).1 d2).2 = .ok d2.film_id := by
  have h1 : db.media d1.film_id = some .film := by rw [hid]; exact hkind
  have e1 : (link_film t1 db d1).1 =
      { db with films := upsertFilm (mkFilmDoc d1 t1) db.films } := by
    simp [link_film, h1]
  have hkey1 : (mkFilmDoc d1 t1).media_id = d2.film_id := by
    simp [mkFilmDoc, hid]
  have hone : filmsFor d2.film_id (upsertFilm (mkFilmDoc d1 t1) db.films) =
      [mkFilmDoc d1 t1] := by
    have := filmsFor_upsertFilm (mkFilmDoc d1 t1) db.films (by rw [hkey1]; exact huniq)
    rw [hkey1] at this
    exact this
  have huniq2 : (filmsFor d2.film_id (upsertFilm (mkFilmDoc d1 t1) db.films)).length ≤ 1 := by
    rw [hone]; simp
  have hkey2 : (mkFilmDoc d2 t2).media_id = d2.film_id := by simp [mkFilmDoc]
  have e2 : link_film t2 (link_film t1 db d1).1 d2 =
      ({ (link_film t1 db d1).1 with
          films := upsertFilm (mkFilmDoc d2 t2) (link_film t1 db d1).1.films },
       .ok d2.film_id) := by
    rw [e1]
    simp [link_film, hkind]
  refine ⟨?_, by rw [e2]⟩
  rw [e2, e1]
  have := filmsFor_upsertFilm (mkFilmDoc d2 t2)
    (upsertFilm (mkFilmDoc d1 t1) db.films) (by rw [hkey2]; exact huniq2)
  rw [hkey2] at this
  simpa using this

/-- C7 witness: linking film "s" twice against a film catalog, starting
from an empty store, leaves exactly the second document. -/
theorem C7_link_film_upsert_witness :
    filmsFor "s"
      (link_film 9 (link_film 3 filmCatDB ⟨"s", "f1", none, "b1", 1⟩).1
        ⟨"s", "f2", some 5, "b2", 2⟩).1.films =
      [mkFilmDoc ⟨"s", "f2", some 5, "b2", 2⟩ 9] ∧
    (link_film 9 (link_film 3 filmCatDB ⟨"s", "f1", none, "b1", 1⟩).1
      ⟨"s", "f2", some 5, "b2", 2⟩).2 = .ok "s" :=
  C7_link_film_upsert 3 9 filmCatDB ⟨"s", "f1", none, "b1", 1⟩
    ⟨"s", "f2", some 5, "b2", 2⟩ rfl rfl (by decide)

/-! ## Claim C2 -/

/-- C2: when the uploader's queue holds strictly fewer than `n` documents,
`link_season_bulk` fails with the insufficient-queue error reporting
`found` = the queue length and `needed` = `n`, and the database is
returned unchanged (no dequeue, no attachment). -/
theorem C2_insufficient_queue_guard (env : Env) (db : DB) (mid : String)
    (sn : Int) (n : Nat) (uid : Int)
    (h : get_queue_count uid db < n) :
    link_season_bulk env db mid sn n uid =
      (db, .error (.insufficientQueue (get_queue_count uid db) n)) := by
  have hlen : (sortTs (forUser uid db.upload_queue)).length = get_queue_count uid db :=
    length_sortTs _
  have hle : (sortTs (forUser uid db.upload_queue)).length ≤ n := by omega
  unfold link_season_bulk
  rw [List.take_of_length_le hle]
  simp only [hlen]
  simp [h]

/-- C2 witness: a one-item bulk request over an empty queue fails with
`found = 0, needed = 1` and leaves the database unchanged. -/
theorem C2_insufficient_queue_guard_witness :
    link_season_bulk envNoFail emptyDB "m" 1 1 7 =
      (emptyDB, .error (.insufficientQueue 0 1)) :=
  C2_insufficient_queue_guard envNoFail emptyDB "m" 1 1 7 (by decide)

/-! ## Claim C1 -/

/-- C1 counterexample: the catalog has no title with id "m", yet
`link_season_bulk` succeeds (no NotFound) and mutates both the episode
store and the upload queue — the handler performs no catalog resolution. -/
theorem C1_counterexample :
    dbQ1.media "m" = none ∧
    (link_season_bulk envNoFail dbQ1 "m" 1 1 7).2 =
      .ok { media_id := "m", season := 1, total_episodes := 1,
            linked_successfully := 1, details := [⟨1, true, none⟩] } ∧
    (link_season_bulk envNoFail dbQ1 "m" 1 1 7).1.episodes =
      [mkEpisodeDoc "m" 1 1 qEntryA 7 42] ∧
    (link_season_bulk envNoFail dbQ1 "m" 1 1 7).1.upload_queue = [] :=
  ⟨rfl, rfl, rfl, rfl⟩

/-- C1 amended: `link_season_bulk` performs no catalog resolution of the
series id — it can never fail with NotFound or WrongKind; its only
request-level failure is the pre-flight InsufficientQueue guard (with
`found` = the uploader's queue length), which is raised before any
mutation. -/
theorem C1_no_catalog_resolution (env : Env) (db : DB) (mid : String)
    (sn : Int) (n : Nat) (uid : Int) (e : HErr)
    (h : (link_season_bulk env db mid sn n uid).2 = .error e) :
    e = .insufficientQueue (get_queue_count uid db) n ∧
    (link_season_bulk env db mid sn n uid).1 = db := by
  by_cases hg : ((sortTs (forUser uid db.upload_queue)).take n).length < n
  · have hfound : ((sortTs (forUser uid db.upload_queue)).take n).length =
        get_queue_count uid db := by
      have hmin : ((sortTs (forUser uid db.upload_queue)).take n).length =
          min n (sortTs (forUser uid db.upload_queue)).length := List.length_take _ _
      have hlen : (sortTs (forUser uid db.upload_queue)).length = get_queue_count uid db :=
        length_sortTs _
      omega
    have heq : link_season_bulk env db mid sn n uid =
        (db, .error (.insufficientQueue
          ((sortTs (forUser uid db.upload_queue)).take n).length n)) := by
      unfold link_season_bulk
      rw [if_pos hg]
    rw [heq] at h
    refine ⟨?_, by rw [heq]⟩
    exact ((Except.error.inj h).symm.trans (by rw [hfound]))
  · have heq : (link_season_bulk env db mid sn n uid).2 =
        .ok { media_id := mid
              season := sn
              total_episodes := n
              linked_successfully :=
                (((linkLoop env mid sn uid
                  ((sortTs (forUser uid db.upload_queue)).take n) 1
                  db.episodes db.upload_queue).2.2).filter (fun o => o.success)).length
              details := (linkLoop env mid sn uid
                ((sortTs (forUser uid db.upload_queue)).take n) 1
                db.episodes db.upload_queue).2.2 } := by
      unfold link_season_bulk
      rw [if_neg hg]
    rw [heq] at h
    exact Except.noConfusion h

/-- C1 witness: at an empty queue the only failure is the insufficient
queue guard, and the database is unmutated. -/
theorem C1_no_catalog_resolution_witness :
    (HErr.insufficientQueue 0 1 =
      .insufficientQueue (get_queue_count 7 emptyDB) 1) ∧
    (link_season_bulk envNoFail emptyDB "m" 1 1 7).1 = emptyDB :=
  C1_no_catalog_resolution envNoFail emptyDB "m" 1 1 7 (.insufficientQueue 0 1) rfl

/-! ## Claim C6 -/

/-- C6 counterexample: an attachment whose channel message reference is
present (the integer 0) together with a content handle is resolved to the
raw-handle plan, not the channel-reference plan — presence alone does not
select the channel tier. -/
theorem C6_counterexample :
    (VideoData.mk (some 0) "f").message_id.isSome = true ∧
    resolvePlan (VideoData.mk (some 0) "f") = .byFileId "f" ∧
    send_video_from_channel replayOk (VideoData.mk (some 0) "f") =
      replayOk.sendVideo "f" := by
  refine ⟨rfl, rfl, rfl⟩

/-- C6 amended: the resolver is a total two-tier choice decided by
truthiness of the channel message reference: when the reference is present
and nonzero the plan is replay-by-channel-reference and the delivery
outcome is exactly `copy_message`'s; when it is absent or zero the plan is
replay-by-raw-handle and the outcome is exactly `send_video`'s.  There is
no third tier and the chosen replay's error propagates unchanged. -/
theorem C6_two_tier_resolution (env : ReplayEnv) (v : VideoData) :
    (∀ m : Int, v.message_id = some m → m ≠ 0 →
      resolvePlan v = .byChannelRef m ∧
      send_video_from_channel env v = env.copyMessage m) ∧
    (v.message_id = none ∨ v.message_id = some 0 →
      resolvePlan v = .byFileId v.file_id ∧
      send_video_from_channel env v = env.sendVideo v.file_id) := by
  constructor
  · intro m hm hnz
    simp [resolvePlan, send_video_from_channel, hm, hnz]
  · rintro (hm | hm) <;> simp [resolvePlan, send_video_from_channel, hm]

/-- C6 amended witness: both tiers evaluated at concrete attachments. -/
theorem C6_two_tier_resolution_witness :
    (resolvePlan (VideoData.mk (some 5) "f") = .byChannelRef 5 ∧
      send_video_from_channel replayOk (VideoData.mk (some 5) "f") =
        replayOk.copyMessage 5) ∧
    (resolvePlan (VideoData.mk none "g") = .byFileId "g" ∧
      send_video_from_channel replayOk (VideoData.mk none "g") =
        replayOk.sendVideo "g") :=
  ⟨(C6_two_tier_resolution replayOk (VideoData.mk (some 5) "f")).1 5 rfl (by decide),
   (C6_two_tier_resolution replayOk (VideoData.mk none "g")).2 (Or.inl rfl)⟩

/-! ## Claim C9 -/

/-- C9: presence of the channel reference is decided by Python truthiness:
an attachment whose `message_id` is the integer 0 is resolved to the
raw-handle plan and delivered via `send_video`, exactly as if the
reference were absent. -/
theorem C9_zero_ref_is_fallback (env : ReplayEnv) (v : VideoData)
    (h : v.message_id = some 0) :
    resolvePlan v = .byFileId v.file_id ∧
    send_video_from_channel env v = env.sendVideo v.file_id ∧
    send_video_from_channel env v =
      send_video_from_channel env { v with message_id := none } := by
  refine ⟨?_, ?_, ?_⟩ <;> simp [resolvePlan, send_video_from_channel, h]

/-- C9 witness: evaluation at a concrete zero-reference attachment. -/
theorem C9_zero_ref_is_fallback_witness :
    resolvePlan (VideoData.mk (some 0) "h") = .byFileId "h" ∧
    send_video_from_channel replayOk (VideoData.mk (some 0) "h") =
      replayOk.sendVideo "h" ∧
    send_video_from_channel replayOk (VideoData.mk (some 0) "h") =
      send_video_from_channel replayOk (VideoData.mk none "h") :=
  C9_zero_ref_is_fallback replayOk (VideoData.mk (some 0) "h") rfl

/-! ## Lemmas about the store primitives -/

theorem mem_eraseById_of_ne {i : Nat} {q : List UploadEntry} {v : UploadEntry}
    (hv : v ∈ q) (hne : v.entryId ≠ i) : v ∈ eraseById i q := by
  induction q with
  | nil => cases hv
  | cons e es ih =>
    by_cases he : e.entryId = i
    · simp only [eraseById, if_pos he]
      rcases List.mem_cons.mp hv with h | h
      · exact absurd (h ▸ he) hne
      · exact h
    · simp only [eraseById, if_neg he]
      rcases List.mem_cons.mp hv with h | h
      · exact h ▸ List.mem_cons_self _ _
      · exact List.mem_cons_of_mem _ (ih h)

theorem insertTs_perm (e : UploadEntry) (l : List UploadEntry) :
    List.Perm (insertTs e l) (e :: l) := by
  induction l with
  | nil => exact List.Perm.refl _
  | cons x xs ih =>
    by_cases h : e.timestamp ≤ x.timestamp
    · simp only [insertTs, if_pos h]
      exact List.Perm.refl _
    · simp only [insertTs, if_neg h]
      exact (ih.cons x).trans (List.Perm.swap e x xs)

theorem sortTs_perm (l : List UploadEntry) : List.Perm (sortTs l) l := by
  induction l with
  | nil => exact List.Perm.refl _
  | cons x xs ih =>
    have : sortTs (x :: xs) = insertTs x (sortTs xs) := rfl
    rw [this]
    exact (insertTs_perm x (sortTs xs)).trans (ih.cons x)

theorem mem_sortTs {l : List UploadEntry} {v : UploadEntry} :
    v ∈ sortTs l ↔ v ∈ l :=
  (sortTs_perm l).mem_iff

theorem sortTs_eq_self {l : List UploadEntry}
    (h : l.Pairwise (fun a b => a.timestamp ≤ b.timestamp)) : sortTs l = l := by
  induction l with
  | nil => rfl
  | cons x xs ih =>
    have hx := List.pairwise_cons.mp h
    have hs : sortTs (x :: xs) = insertTs x (sortTs xs) := rfl
    rw [hs, ih hx.2]
    cases xs with
    | nil => rfl
    | cons y ys =>
      have : x.timestamp ≤ y.timestamp := hx.1 y (List.mem_cons_self _ _)
      simp [insertTs, this]

/-! ## The per-item branch outcome of the bulk loop -/

theorem linkLoop_cons_upsertFail (env : Env) (mid : String) (sn : Int) (uid : Int)
    (u : UploadEntry) (us : List UploadEntry) (ep : Nat) (eps : List EpisodeDoc)
    (q : List UploadEntry) (h1 : env.upsertFails ep = true) :
    linkLoop env mid sn uid (u :: us) ep eps q =
      ((linkLoop env mid sn uid us (ep + 1) eps q).1,
       (linkLoop env mid sn uid us (ep + 1) eps q).2.1,
       (⟨ep, false, some (env.failMsg ep)⟩ : Outcome) ::
         (linkLoop env mid sn uid us (ep + 1) eps q).2.2) := by
  simp only [linkLoop, if_pos h1]

theorem linkLoop_cons_dequeueFail (env : Env) (mid : String) (sn : Int) (uid : Int)
    (u : UploadEntry) (us : List UploadEntry) (ep : Nat) (eps : List EpisodeDoc)
    (q : List UploadEntry) (h1 : ¬env.upsertFails ep = true)
    (h2 : env.dequeueFails ep = true) :
    linkLoop env mid sn uid (u :: us) ep eps q =
      ((linkLoop env mid sn uid us (ep + 1)
          (upsertEpisode (mkEpisodeDoc mid sn ep u uid env.now) eps) q).1,
       (linkLoop env mid sn uid us (ep + 1)
          (upsertEpisode (mkEpisodeDoc mid sn ep u uid env.now) eps) q).2.1,
       (⟨ep, false, some (env.failMsg ep)⟩ : Outcome) ::
         (linkLoop env mid sn uid us (ep + 1)
            (upsertEpisode (mkEpisodeDoc mid sn ep u uid env.now) eps) q).2.2) := by
  simp only [linkLoop, if_neg h1, if_pos h2]

theorem linkLoop_cons_ok (env : Env) (mid : String) (sn : Int) (uid : Int)
    (u : UploadEntry) (us : List UploadEntry) (ep : Nat) (eps : List EpisodeDoc)
    (q : List UploadEntry) (h1 : ¬env.upsertFails ep = true)
    (h2 : ¬env.dequeueFails ep = true) :
    linkLoop env mid sn uid (u :: us) ep eps q =
      ((linkLoop env mid sn uid us (ep + 1)
          (upsertEpisode (mkEpisodeDoc mid sn ep u uid env.now) eps)
          (eraseById u.entryId q)).1,
       (linkLoop env mid sn uid us (ep + 1)
          (upsertEpisode (mkEpisodeDoc mid sn ep u uid env.now) eps)
          (eraseById u.entryId q)).2.1,
       (⟨ep, true, none⟩ : Outcome) ::
         (linkLoop env mid sn uid us (ep + 1)
            (upsertEpisode (mkEpisodeDoc mid sn ep u uid env.now) eps)
            (eraseById u.entryId q)).2.2) := by
  simp only [linkLoop, if_neg h1, if_neg h2]

theorem linkLoop_queue_keep (env : Env) (mid : String) (sn : Int) (uid : Int) :
    ∀ (us : List UploadEntry) (ep : Nat) (eps : List EpisodeDoc)
      (q : List UploadEntry) (v : UploadEntry),
      v ∈ q → (∀ u ∈ us, u.entryId ≠ v.entryId) →
      v ∈ (linkLoop env mid sn uid us ep eps q).2.1 := by
  intro us
  induction us with
  | nil => intro ep eps q v hv _; exact hv
  | cons u us ih =>
    intro ep eps q v hv hne
    by_cases h1 : env.upsertFails ep
    · rw [linkLoop_cons_upsertFail env mid sn uid u us ep eps q h1]
      exact ih (ep + 1) eps q v hv (fun w hw => hne w (List.mem_cons_of_mem u hw))
    · by_cases h2 : env.dequeueFails ep
      · rw [linkLoop_cons_dequeueFail env mid sn uid u us ep eps q h1 h2]
        exact ih (ep + 1) _ q v hv (fun w hw => hne w (List.mem_cons_of_mem u hw))
      · rw [linkLoop_cons_ok env mid sn uid u us ep eps q h1 h2]
        have hv1 : v ∈ eraseById u.entryId q := by
          apply mem_eraseById_of_ne hv
          intro hc
          exact hne u (List.mem_cons_self u us) hc.symm
        exact ih (ep + 1) _ _ v hv1 (fun w hw => hne w (List.mem_cons_of_mem u hw))

/-- C10: `add_to_queue` attributes the inserted entry to the `user_id` of
the request body, ignoring the path parameter: when the two differ, the
entry is appended carrying the body's `user_id`, and the queue read,
count, and clear operations addressed to the path's `user_id` are
unaffected (the entry even survives a clear of the path user's queue);
the bulk-link consumer addressed to the path's `user_id` peeks the same
prefix as before the enqueue and, under `_id` uniqueness of the queue
collection, never dequeues the entry. -/
theorem C10_enqueue_uses_body_user (t : Nat) (p : Int) (data : UploadCreate)
    (db : DB) (hne : data.user_id ≠ p) :
    (add_to_queue t p data db).1.upload_queue =
      db.upload_queue ++
        [⟨db.nextId, data.user_id, data.file_id, data.bot_name, data.message_id, t⟩] ∧
    forUser p (add_to_queue t p data db).1.upload_queue =
      forUser p db.upload_queue ∧
    get_queue p (add_to_queue t p data db).1 = get_queue p db ∧
    get_queue_count p (add_to_queue t p data db).1 = get_queue_count p db ∧
    (⟨db.nextId, data.user_id, data.file_id, data.bot_name, data.message_id, t⟩ :
        UploadEntry) ∈
      (clear_queue p (add_to_queue t p data db).1).1.upload_queue ∧
    (∀ n : Nat,
      (sortTs (forUser p (add_to_queue t p data db).1.upload_queue)).take n =
        (sortTs (forUser p db.upload_queue)).take n) ∧
    (∀ (env : Env) (mid : String) (sn : Int) (n : Nat),
      ((add_to_queue t p data db).1.upload_queue.map UploadEntry.entryId).Nodup →
      (⟨db.nextId, data.user_id, data.file_id, data.bot_name, data.message_id, t⟩ :
          UploadEntry) ∈
        (link_season_bulk env (add_to_queue t p data db).1 mid sn n p).1.upload_queue) := by
  have h1 : (add_to_queue t p data db).1.upload_queue =
      db.upload_queue ++
        [⟨db.nextId, data.user_id, data.file_id, data.bot_name, data.message_id, t⟩] :=
    rfl
  have h2 : forUser p (add_to_queue t p data db).1.upload_queue =
      forUser p db.upload_queue := by
    rw [h1]
    simp [forUser, List.filter_append, hne]
  have hEmem : (⟨db.nextId, data.user_id, data.file_id, data.bot_name,
      data.message_id, t⟩ : UploadEntry) ∈ (add_to_queue t p data db).1.upload_queue := by
    rw [h1]
    exact List.mem_append_right _ (List.mem_cons_self _ _)
  refine ⟨h1, h2, ?_, ?_, ?_, ?_, ?_⟩
  · simp only [get_queue, h2]
  · simp only [get_queue_count, h2]
  · simp only [clear_queue, h1]
    rw [List.mem_filter]
    constructor
    · exact List.mem_append_right _ (List.mem_cons_self _ _)
    · simp [hne]
  · intro n
    rw [h2]
  · intro env mid sn n hnd
    by_cases hg :
        ((sortTs (forUser p (add_to_queue t p data db).1.upload_queue)).take n).length < n
    · have heq : link_season_bulk env (add_to_queue t p data db).1 mid sn n p =
          ((add_to_queue t p data db).1,
           .error (.insufficientQueue
             ((sortTs (forUser p (add_to_queue t p data db).1.upload_queue)).take
               n).length n)) := by
        unfold link_season_bulk
        rw [if_pos hg]
      rw [heq]
      exact hEmem
    · have heq : (link_season_bulk env (add_to_queue t p data db).1 mid sn n p).1.upload_queue =
          (linkLoop env mid sn p
            ((sortTs (forUser p (add_to_queue t p data db).1.upload_queue)).take n) 1
            (add_to_queue t p data db).1.episodes
            (add_to_queue t p data db).1.upload_queue).2.1 := by
        unfold link_season_bulk
        rw [if_neg hg]
      rw [heq]
      apply linkLoop_queue_keep env mid sn p _ 1 _ _ _ hEmem
      intro u hu hcontra
      have hu2 : u ∈ forUser p (add_to_queue t p data db).1.upload_queue :=
        mem_sortTs.mp (List.mem_of_mem_take hu)
      have huq : u ∈ (add_to_queue t p data db).1.upload_queue :=
        (List.mem_filter.mp hu2).1
      have hup : u.user_id = p := by
        simpa using (List.mem_filter.mp hu2).2
      have hEq : u = (⟨db.nextId, data.user_id, data.file_id, data.bot_name,
          data.message_id, t⟩ : UploadEntry) :=
        List.inj_on_of_nodup_map hnd huq hEmem hcontra
      rw [hEq] at hup
      exact hne hup

/-- C10 witness: enqueueing a body for user 1 through path user 2 leaves
user 2's queue views, its peeked bulk prefix, and a subsequent bulk link
addressed to user 2 untouched. -/
theorem C10_enqueue_uses_body_user_witness :
    (add_to_queue 4 2 ⟨1, "x", "bX", none⟩ emptyDB).1.upload_queue =
      emptyDB.upload_queue ++ [⟨emptyDB.nextId, 1, "x", "bX", none, 4⟩] ∧
    forUser 2 (add_to_queue 4 2 ⟨1, "x", "bX", none⟩ emptyDB).1.upload_queue =
      forUser 2 emptyDB.upload_queue ∧
    get_queue 2 (add_to_queue 4 2 ⟨1, "x", "bX", none⟩ emptyDB).1 =
      get_queue 2 emptyDB ∧
    get_queue_count 2 (add_to_queue 4 2 ⟨1, "x", "bX", none⟩ emptyDB).1 =
      get_queue_count 2 emptyDB ∧
    (⟨emptyDB.nextId, 1, "x", "bX", none, 4⟩ : UploadEntry) ∈
      (clear_queue 2 (add_to_queue 4 2 ⟨1, "x", "bX", none⟩ emptyDB).1).1.upload_queue ∧
    (sortTs (forUser 2
        (add_to_queue 4 2 ⟨1, "x", "bX", none⟩ emptyDB).1.upload_queue)).take 1 =
      (sortTs (forUser 2 emptyDB.upload_queue)).take 1 ∧
    (⟨emptyDB.nextId, 1, "x", "bX", none, 4⟩ : UploadEntry) ∈
      (link_season_bulk envNoFail (add_to_queue 4 2 ⟨1, "x", "bX", none⟩ emptyDB).1
        "m" 1 1 2).1.upload_queue := by
  have H := C10_enqueue_uses_body_user 4 2 ⟨1, "x", "bX", none⟩ emptyDB (by decide)
  exact ⟨H.1, H.2.1, H.2.2.1, H.2.2.2.1, H.2.2.2.2.1, H.2.2.2.2.2.1 1,
    H.2.2.2.2.2.2 envNoFail "m" 1 1 (by decide)⟩

/-! ## Claim C5 -/

/-- First enqueue body of the C5 run. -/
def enqA : UploadCreate := { user_id := 1, file_id := "a", bot_name := "bA", message_id := none }

/-- Second enqueue body of the C5 run. -/
def enqB : UploadCreate := { user_id := 1, file_id := "b", bot_name := "bB", message_id := none }

/-- Database after enqueueing `enqA` at wall-clock time 5. -/
def dbLate : DB := (add_to_queue 5 1 enqA emptyDB).1

/-- Database after then enqueueing `enqB` at wall-clock time 3 (the clock
stepped backwards between the two arrivals). -/
def dbBack : DB := (add_to_queue 3 1 enqB dbLate).1

/-- C5 counterexample: entry "a" arrived first (insertion order a, b) but
carries the later wall-clock timestamp, and the queue read returns b
first: the ordering key is the stored timestamp, not insertion order, so
the first 1 returned is not the first 1 enqueued. -/
theorem C5_counterexample :
    dbBack.upload_queue.map UploadEntry.file_id = ["a", "b"] ∧
    (get_queue 1 dbBack).map UploadEntry.file_id = ["b", "a"] ∧
    (get_queue 1 dbBack).map UploadEntry.file_id ≠
      dbBack.upload_queue.map UploadEntry.file_id := by
  refine ⟨rfl, rfl, by decide⟩

theorem enqueueAll_forUser_map (pid U : Int) :
    ∀ (enqs : List (Nat × UploadCreate)) (db : DB),
      (∀ pr ∈ enqs, pr.2.user_id = U) →
      (forUser U
          ((enqs.foldl (fun d pr => (add_to_queue pr.1 pid pr.2 d).1)
            db).upload_queue)).map
          (fun e => (e.file_id, e.bot_name, e.message_id, e.timestamp)) =
        (forUser U db.upload_queue).map
            (fun e => (e.file_id, e.bot_name, e.message_id, e.timestamp)) ++
          enqs.map (fun pr => (pr.2.file_id, pr.2.bot_name, pr.2.message_id, pr.1)) := by
  intro enqs
  induction enqs with
  | nil => intro db _; simp
  | cons pr prs ih =>
    intro db hall
    have hstep : (add_to_queue pr.1 pid pr.2 db).1.upload_queue =
        db.upload_queue ++
          [⟨db.nextId, pr.2.user_id, pr.2.file_id, pr.2.bot_name, pr.2.message_id,
            pr.1⟩] := rfl
    have hfor : forUser U (add_to_queue pr.1 pid pr.2 db).1.upload_queue =
        forUser U db.upload_queue ++
          [⟨db.nextId, pr.2.user_id, pr.2.file_id, pr.2.bot_name, pr.2.message_id,
            pr.1⟩] := by
      rw [hstep]
      simp [forUser, List.filter_append, hall pr (List.mem_cons_self _ _)]
    have hfold : (pr :: prs).foldl (fun d q => (add_to_queue q.1 pid q.2 d).1) db =
        prs.foldl (fun d q => (add_to_queue q.1 pid q.2 d).1)
          (add_to_queue pr.1 pid pr.2 db).1 := rfl
    rw [hfold, ih _ (fun q hq => hall q (List.mem_cons_of_mem pr hq)), hfor]
    simp

/-- C5 amended: the queue read returns the owner's entries sorted (stably)
by the wall-clock timestamp stored at enqueue time; whenever the enqueue
timestamps are non-decreasing in arrival order — in particular under a
monotone clock — the returned list is exactly the arrival-order sequence
of enqueues, so the first k returned are the first k enqueued for every
k ≤ N. -/
theorem C5_fifo_under_monotone_clock (pid U : Int) (db0 : DB)
    (enqs : List (Nat × UploadCreate))
    (h0 : forUser U db0.upload_queue = [])
    (hall : ∀ pr ∈ enqs, pr.2.user_id = U)
    (hmono : enqs.Pairwise (fun a b => a.1 ≤ b.1)) :
    get_queue U (enqs.foldl (fun d pr => (add_to_queue pr.1 pid pr.2 d).1) db0) =
      forUser U
        (enqs.foldl (fun d pr => (add_to_queue pr.1 pid pr.2 d).1)
          db0).upload_queue ∧
    (get_queue U
        (enqs.foldl (fun d pr => (add_to_queue pr.1 pid pr.2 d).1) db0)).map
        (fun e => (e.file_id, e.bot_name, e.message_id, e.timestamp)) =
      enqs.map (fun pr => (pr.2.file_id, pr.2.bot_name, pr.2.message_id, pr.1)) := by
  have hmap := enqueueAll_forUser_map pid U enqs db0 hall
  rw [h0] at hmap
  simp only [List.map_nil, List.nil_append] at hmap
  have hts : (forUser U
      ((enqs.foldl (fun d pr => (add_to_queue pr.1 pid pr.2 d).1)
        db0).upload_queue)).map UploadEntry.timestamp =
      enqs.map (fun pr => pr.1) := by
    have := congrArg (List.map (fun q : String × String × Option Int × Nat => q.2.2.2)) hmap
    simpa [List.map_map, Function.comp] using this
  have hpw : (forUser U
      ((enqs.foldl (fun d pr => (add_to_queue pr.1 pid pr.2 d).1)
        db0).upload_queue)).Pairwise
      (fun a b => a.timestamp ≤ b.timestamp) := by
    have h1 : ((forUser U
        ((enqs.foldl (fun d pr => (add_to_queue pr.1 pid pr.2 d).1)
          db0).upload_queue)).map UploadEntry.timestamp).Pairwise (· ≤ ·) := by
      rw [hts]
      exact List.pairwise_map.mpr hmono
    exact List.pairwise_map.mp h1
  have hsort := sortTs_eq_self hpw
  constructor
  · simp only [get_queue]
    exact hsort
  · simp only [get_queue]
    rw [hsort]
    exact hmap

/-- C5 amended witness: two enqueues for user 1 at non-decreasing times 1
then 2 are read back in arrival order. -/
theorem C5_fifo_under_monotone_clock_witness :
    get_queue 1
        ([((1 : Nat), enqA), ((2 : Nat), enqB)].foldl
          (fun d pr => (add_to_queue pr.1 1 pr.2 d).1) emptyDB) =
      forUser 1
        (([((1 : Nat), enqA), ((2 : Nat), enqB)].foldl
          (fun d pr => (add_to_queue pr.1 1 pr.2 d).1) emptyDB)).upload_queue ∧
    (get_queue 1
        ([((1 : Nat), enqA), ((2 : Nat), enqB)].foldl
          (fun d pr => (add_to_queue pr.1 1 pr.2 d).1) emptyDB)).map
        (fun e => (e.file_id, e.bot_name, e.message_id, e.timestamp)) =
      [("a", "bA", none, 1), ("b", "bB", none, 2)] :=
  C5_fifo_under_monotone_clock 1 1 emptyDB [(1, enqA), (2, enqB)] rfl
    (by decide) (by decide)
